import Mathlib

/-!
Verification development for the task_planet backend's post lifecycle and
engagement subsystem (postController.ts + models/Post.ts), shallowly embedded
in Lean.  Mongoose documents become plain structures; `ObjectId`s become `Nat`
or `String`; timestamps become `Nat`; JavaScript numbers used as like counters
become `Int`; fallible controller actions return `Except ApiErr _`.
The repository-maintained `updatedAt` timestamp is not used by any modelled
operation and is omitted from the structure.
-/

/-- Model of JavaScript `String.prototype.trim`: strip leading and trailing
whitespace characters (mongoose applies this through the schema's
`trim: true` setter on `content` assignment). -/
def jsTrim (s : String) : String :=
  ⟨(((s.data.dropWhile Char.isWhitespace).reverse.dropWhile Char.isWhitespace).reverse)⟩

/-- The string has at least one non-whitespace character; equivalently (proved
below) its trim is non-empty. -/
def hasNonWs (s : String) : Bool :=
  s.data.any (fun ch => !ch.isWhitespace)

/-- JavaScript falsiness of an optional string field: `!x` is `true` exactly
when the field is `undefined` or the empty string. -/
def contentFalsy : Option String → Bool
  | none => true
  | some s => s == ""

/-- Image subdocument: `{url, publicId}` (models/Post.ts `imageSchema`). -/
structure Image where
  url : String
  publicId : String
deriving DecidableEq

/-- Likes subdocument: `{count, users}` where `users` holds usernames
(models/Post.ts `postSchema.likes`); `count` is a JavaScript number. -/
structure Likes where
  count : Int
  users : List String
deriving DecidableEq

/-- Comment subdocument (models/Post.ts `commentSchema`). -/
structure Comment where
  userId : String
  username : String
  text : String
  createdAt : Nat
deriving DecidableEq

/-- Post document (models/Post.ts `IPostDocument`). -/
structure Post where
  id : Nat
  author : String
  authorUsername : String
  authorProfilePicture : Option String
  content : Option String
  images : List Image
  likes : Likes
  comments : List Comment
  isEdited : Bool
  editedAt : Option Nat
  createdAt : Nat
deriving DecidableEq

/-- Error taxonomy, tagged with the HTTP status the controller sends. -/
inductive ApiErr where
  | validation (msg : String)
  | unauthorized (msg : String)
  | forbidden (msg : String)
  | notFound (msg : String)
  | server (msg : String)
deriving DecidableEq

/-- Uploaded file produced by multer-cloudinary (`{path, filename}`). -/
structure MulterFile where
  path : String
  filename : String
deriving DecidableEq

/-- Controllers map a multer file to an image as `{url: path, publicId: filename}`. -/
def fileToImage (f : MulterFile) : Image :=
  ⟨f.path, f.filename⟩

/-- Verified identity snapshot attached to the request plus the author's
profile fields read from the User document. -/
structure AuthorSnap where
  id : String
  username : String
  profilePicture : Option String
deriving DecidableEq

/-- Error message shared by the controller check and the schema hook. -/
def postEmptyMsg : String := "Post must have either content or at least one image"

/-- The `postSchema.pre('save')` hook: throws a plain `Error` (surfacing as a
500 through the controller's catch) when `!this.content && this.images.length === 0`. -/
def preSaveCheck (p : Post) : Except ApiErr Post :=
  if contentFalsy p.content && p.images.isEmpty then
    .error (.server postEmptyMsg)
  else
    .ok p

/-- Modelled from the spec: `deleteImage` lives in src/config/cloudinary.ts,
which is absent from src/.  Per spec section 4.2 and section 7, asset deletion
is best-effort: a failure is logged and never raised to the caller, and
"already absent" counts as success.  `assetFail` is an oracle saying which
external deletions fail; the returned Bool reports success and is ignored by
every controller, matching the source's bare `await deleteImage(...)` calls. -/
def deleteImage (assetFail : String → Bool) (publicId : String) : Bool :=
  !(assetFail publicId)

/-- The `createPost` controller (postController.ts) behind the
`createPostValidation` middleware (postRoutes.ts): express-validator's
`.trim()` sanitizer rewrites `req.body.content` in place before the
controller runs, so the controller's falsiness check already sees trimmed
content.  The document is built from the sanitized body (the schema's trim
setter reapplies the trim on assignment) with `likes = {0, []}`,
`comments = []`, `isEdited = false`, and saved (running the pre-save hook). -/
def createPost (user : AuthorSnap) (content : Option String)
    (files : List MulterFile) (newId : Nat) (now : Nat) : Except ApiErr Post :=
  if contentFalsy (content.map jsTrim) && files.isEmpty then
    .error (.validation postEmptyMsg)
  else
    preSaveCheck
      { id := newId
        author := user.id
        authorUsername := user.username
        authorProfilePicture := user.profilePicture
        content := (content.map jsTrim).map jsTrim
        images := files.map fileToImage
        likes := ⟨0, []⟩
        comments := []
        isEdited := false
        editedAt := none
        createdAt := now }

/-- The like/unlike block of `likePost`: if the username is present, filter it
out and decrement the count floored at 0; otherwise push it and increment. -/
def toggleLike (likes : Likes) (username : String) : Likes × Bool :=
  if likes.users.contains username then
    (⟨max 0 (likes.count - 1), likes.users.filter (fun u => u != username)⟩, false)
  else
    (⟨likes.count + 1, likes.users ++ [username]⟩, true)

/-- The `likePost` controller: toggle, save (pre-save hook), and return the
resulting post together with `liked = !hasLiked`. -/
def likePost (p : Post) (username : String) : Except ApiErr (Post × Bool) :=
  (preSaveCheck { p with likes := (toggleLike p.likes username).1 }).map
    (fun q => (q, (toggleLike p.likes username).2))

/-- The `addComment` controller: express-validator trims the text and requires
it non-empty and at most 500 characters; the new comment is appended and the
post saved. -/
def addComment (p : Post) (userId : String) (username : String)
    (text : String) (now : Nat) : Except ApiErr (Post × Comment) :=
  if jsTrim text == "" || (jsTrim text).length > 500 then
    .error (.validation "Comment text is required")
  else
    (preSaveCheck { p with comments := p.comments ++ [⟨userId, username, jsTrim text, now⟩] }).map
      (fun q => (q, ⟨userId, username, jsTrim text, now⟩))

/-- Sequential image-removal filters of `updatePost` step (a): for each
publicId in order, keep only images whose publicId differs. -/
def applyDeletions (images : List Image) (deleteList : List String) : List Image :=
  deleteList.foldl (fun imgs pid => imgs.filter (fun img => img.publicId != pid)) images

/-- The `updatePost` deletion loop: for each publicId, request the external
asset deletion (result ignored) and then filter the image list.  Returns the
surviving images and the publicIds whose deletion was requested, in order. -/
def updateLoop (assetFail : String → Bool) :
    List Image → List String → List Image × List String
  | imgs, [] => (imgs, [])
  | imgs, pid :: rest =>
    let _ok := deleteImage assetFail pid
    let imgs2 := imgs.filter (fun img => img.publicId != pid)
    let r := updateLoop assetFail imgs2 rest
    (r.1, pid :: r.2)

/-- Step (c) of `updatePost`: when `content !== undefined` the field is
replaced (through the schema's trim setter); an absent field leaves the stored
content unchanged. -/
def updContent (p : Post) (content : Option String) : Option String :=
  match content with
  | none => p.content
  | some c => some (jsTrim c)

/-- Final image list after `updatePost` steps (a) and (b): survivors of the
deletion loop followed by the freshly uploaded images. -/
def updImages (p : Post) (deleteList : List String) (files : List MulterFile) : List Image :=
  applyDeletions p.images deleteList ++ files.map fileToImage

deriving instance DecidableEq for Except

/-- Observable outcome of a mutation that may touch the repository and the
external asset store: the HTTP-level response, the post record as persisted
after the call, and the asset deletions requested (in request order). -/
structure UpdateOutcome where
  response : Except ApiErr Post
  persisted : Post
  assetDeletes : List String
deriving DecidableEq

/-- The `updatePost` controller (postController.ts), for an existing post.
Ownership is checked first; then step (a) deletes listed images (asset
deletion requested before each removal), step (b) appends new uploads,
step (c) replaces content when provided; the content-or-images check runs
before the save, so a violating update returns 400 and persists nothing,
while the already-requested asset deletions stand. -/
def updatePost (assetFail : String → Bool) (p : Post) (requesterId : String)
    (content : Option String) (deleteList : List String)
    (files : List MulterFile) (now : Nat) : UpdateOutcome :=
  if p.author != requesterId then
    ⟨.error (.forbidden "Not authorized to edit this post"), p, []⟩
  else
    let step1 := updateLoop assetFail p.images deleteList
    let imgs2 := step1.1 ++ files.map fileToImage
    let newContent := updContent p content
    if contentFalsy newContent && imgs2.isEmpty then
      ⟨.error (.validation postEmptyMsg), p, step1.2⟩
    else
      let p2 := { p with content := newContent, images := imgs2,
                         isEdited := true, editedAt := some now }
      match preSaveCheck p2 with
      | .ok q => ⟨.ok q, q, step1.2⟩
      | .error e => ⟨.error e, p, step1.2⟩

/-- The `deletePostImage` controller, for an existing post: ownership check,
then 404 when no image matches, then the last-image guard (400, nothing
deleted), otherwise the external asset is deleted, the entry spliced out, and
the post saved. -/
def deletePostImage (assetFail : String → Bool) (p : Post)
    (requesterId : String) (publicId : String) : UpdateOutcome :=
  if p.author != requesterId then
    ⟨.error (.forbidden "Not authorized to edit this post"), p, []⟩
  else
    match p.images.findIdx? (fun img => img.publicId == publicId) with
    | none => ⟨.error (.notFound "Image not found in post"), p, []⟩
    | some i =>
      if contentFalsy p.content && p.images.length == 1 then
        ⟨.error (.validation "Cannot delete last image. Post must have content or images."), p, []⟩
      else
        let _ok := deleteImage assetFail publicId
        let p2 := { p with images := p.images.eraseIdx i }
        match preSaveCheck p2 with
        | .ok q => ⟨.ok q, q, [publicId]⟩
        | .error e => ⟨.error e, p, [publicId]⟩

/-- The `deletePost` image loop: `for (const image of post.images) await
deleteImage(image.publicId)`.  Each deletion is requested through the
best-effort adapter whose result is ignored, so every publicId is attempted
regardless of earlier failures. -/
def deleteAllImages (assetFail : String → Bool) : List Image → List String
  | [] => []
  | img :: rest =>
    let _ok := deleteImage assetFail img.publicId
    img.publicId :: deleteAllImages assetFail rest

/-- Observable outcome of `deletePost`: response, whether the record was
removed, and the asset deletions requested. -/
structure DeletePostOutcome where
  response : Except ApiErr Unit
  removed : Bool
  assetDeletes : List String

/-- The `deletePost` controller, for an existing post: ownership check, then
every owned image's asset deletion is requested, then the record is removed. -/
def deletePost (assetFail : String → Bool) (p : Post) (requesterId : String) :
    DeletePostOutcome :=
  if p.author != requesterId then
    ⟨.error (.forbidden "Not authorized to delete this post"), false, []⟩
  else
    ⟨.ok (), true, deleteAllImages assetFail p.images⟩

/-- Ordering used by the feed query `.sort({ createdAt: -1 })`: a post comes
before another exactly when its `createdAt` is at least as large.  The source
specifies no secondary sort key, so ties are realized in stored order (the
sort below is stable). -/
def createdGE (a b : Post) : Prop := b.createdAt ≤ a.createdAt

instance : DecidableRel createdGE := fun a b => Nat.decLe b.createdAt a.createdAt

instance : IsTotal Post createdGE := ⟨fun a b => Nat.le_total b.createdAt a.createdAt⟩

instance : IsTrans Post createdGE := ⟨fun _ _ _ h1 h2 => Nat.le_trans h2 h1⟩

/-- Pagination metadata returned by `getPosts`. -/
structure Pagination where
  currentPage : Nat
  totalPages : Nat
  totalItems : Nat
  hasMore : Bool
deriving DecidableEq

/-- Feed page: the returned posts together with pagination metadata. -/
structure FeedResult where
  data : List Post
  pagination : Pagination
deriving DecidableEq

/-- The `getPosts` controller over a repository modelled as the list of stored
posts, taking the already-parsed `page` and `limit`: sort by `createdAt`
descending, skip `(page-1)*limit`, take `limit`; `totalPages` is
`Math.ceil(totalPosts/limit)` and `hasMore` is `page < totalPages`. -/
def getPosts (repo : List Post) (page limit : Nat) : FeedResult :=
  let skip := (page - 1) * limit
  let totalPosts := repo.length
  let posts := ((List.insertionSort createdGE repo).drop skip).take limit
  let totalPages := (totalPosts + limit - 1) / limit
  ⟨posts, ⟨page, totalPages, totalPosts, decide (page < totalPages)⟩⟩

/-! Helper lemmas about trimming, the image-deletion loops, and username
filtering. -/

/-- Dropping leading whitespace does not change whether a non-whitespace
character is present. -/
theorem any_nonWs_dropWhile (l : List Char) :
    (l.dropWhile Char.isWhitespace).any (fun ch => !ch.isWhitespace) =
      l.any (fun ch => !ch.isWhitespace) := by
  induction l with
  | nil => rfl
  | cons a t ih =>
    by_cases ha : a.isWhitespace
    · simp [List.dropWhile_cons, ha, ih]
    · simp [List.dropWhile_cons, ha]

/-- Trimming does not change whether a non-whitespace character is present. -/
theorem hasNonWs_jsTrim (s : String) : hasNonWs (jsTrim s) = hasNonWs s := by
  show (((s.data.dropWhile Char.isWhitespace).reverse.dropWhile
      Char.isWhitespace).reverse).any (fun ch => !ch.isWhitespace) = _
  rw [List.any_reverse, any_nonWs_dropWhile, List.any_reverse, any_nonWs_dropWhile]
  rfl

/-- The trim of a string is empty exactly when the string is all whitespace. -/
theorem jsTrim_eq_empty_iff (s : String) : jsTrim s = "" ↔ hasNonWs s = false := by
  constructor
  · intro h
    have h2 : hasNonWs (jsTrim s) = false := by
      rw [h]; rfl
    rwa [hasNonWs_jsTrim] at h2
  · intro h
    have hall : ∀ ch ∈ s.data, ch.isWhitespace = true := by
      intro ch hch
      by_contra hcontra
      have : s.data.any (fun c => !c.isWhitespace) = true :=
        List.any_eq_true.mpr ⟨ch, hch, by simp [hcontra]⟩
      rw [show s.data.any (fun c => !c.isWhitespace) = hasNonWs s from rfl, h] at this
      exact Bool.false_ne_true this
    have hdrop : s.data.dropWhile Char.isWhitespace = [] :=
      List.dropWhile_eq_nil_iff.mpr hall
    show String.mk _ = ""
    rw [hdrop]
    rfl

/-- Boolean version of `jsTrim_eq_empty_iff`. -/
theorem jsTrim_bne_empty (s : String) : (jsTrim s != "") = hasNonWs s := by
  by_cases h : hasNonWs s = true
  · have : jsTrim s ≠ "" := fun hc => by
      rw [jsTrim_eq_empty_iff] at hc
      rw [hc] at h
      exact Bool.false_ne_true h
    simp [this, h]
  · have hf : hasNonWs s = false := Bool.eq_false_iff.mpr h
    have : jsTrim s = "" := (jsTrim_eq_empty_iff s).mpr hf
    simp [this, hf]

/-- The `updatePost` deletion loop computes the sequential filters and
requests exactly the listed deletions in order. -/
theorem updateLoop_spec (assetFail : String → Bool) (deleteList : List String) :
    ∀ imgs, updateLoop assetFail imgs deleteList = (applyDeletions imgs deleteList, deleteList) := by
  induction deleteList with
  | nil => intro imgs; rfl
  | cons pid rest ih =>
    intro imgs
    simp [updateLoop, applyDeletions, List.foldl_cons, ih]

/-- Sequentially filtering each listed publicId equals one filter keeping the
images whose publicId is not listed. -/
theorem applyDeletions_eq_filter (deleteList : List String) :
    ∀ imgs, applyDeletions imgs deleteList =
      imgs.filter (fun img => !(deleteList.contains img.publicId)) := by
  induction deleteList with
  | nil => intro imgs; simp [applyDeletions]
  | cons pid rest ih =>
    intro imgs
    have h1 : applyDeletions imgs (pid :: rest)
        = applyDeletions (imgs.filter (fun img => img.publicId != pid)) rest := rfl
    rw [h1, ih, List.filter_filter]
    apply List.filter_congr
    intro img _
    by_cases h : img.publicId = pid
    · simp [h]
    · by_cases h2 : rest.contains img.publicId = true
      · simp [h, h2]
      · simp [h, Bool.eq_false_iff.mpr h2]

/-- The `deletePost` loop requests the deletion of every owned image's asset,
in order, whatever the external failure pattern. -/
theorem deleteAllImages_spec (assetFail : String → Bool) :
    ∀ imgs : List Image, deleteAllImages assetFail imgs = imgs.map (fun img => img.publicId) := by
  intro imgs
  induction imgs with
  | nil => rfl
  | cons img rest ih => simp [deleteAllImages, ih]

/-- Filtering out a username that is not present changes nothing. -/
theorem filter_bne_of_not_mem (l : List String) (u : String) (h : u ∉ l) :
    l.filter (fun w => w != u) = l := by
  rw [List.filter_eq_self]
  intro a ha
  simp only [bne_iff_ne, ne_eq, decide_eq_true_eq]
  rintro rfl; exact h ha

/-- Membership in the username filter. -/
theorem mem_filter_bne (l : List String) (u v : String) :
    v ∈ l.filter (fun w => w != u) ↔ v ∈ l ∧ v ≠ u := by
  simp [List.mem_filter]

/-- On a duplicate-free list containing the username, the filter removes
exactly one element. -/
theorem length_filter_bne (l : List String) (u : String)
    (hd : l.Nodup) (hm : u ∈ l) :
    (l.filter (fun w => w != u)).length + 1 = l.length := by
  have hc : l.count u = 1 := List.count_eq_one_of_mem hd hm
  have h1 := (List.length_eq_countP_add_countP (fun w => w != u) l).symm
  have h2 : l.countP (fun a => decide ¬(a != u) = true) = l.count u := by
    unfold List.count
    apply List.countP_congr
    intro a _
    constructor
    · intro h; simp only [decide_eq_true_eq, bne_iff_ne, ne_eq, not_not] at h
      simp [h]
    · intro h
      have : a = u := by simpa using h
      simp [this]
  rw [← List.countP_eq_length_filter]
  omega

/-- C2: if a post's likes satisfy count = size of the users set and the users
list has no duplicates, then after `toggleLike` (the like/unlike block of
`likePost`) the count still equals the users-set size, is non-negative, and
the users list is still duplicate-free; and a fresh post created by
`createPost` has likes `{count := 0, users := []}`. -/
theorem c2_likes_invariant (lk : Likes) (u : String)
    (hc : lk.count = (lk.users.length : Int)) (hd : lk.users.Nodup) :
    ((toggleLike lk u).1.count = (((toggleLike lk u).1.users.length : Int)) ∧
     0 ≤ (toggleLike lk u).1.count ∧
     (toggleLike lk u).1.users.Nodup) ∧
    (∀ snap c files nid now p, createPost snap c files nid now = Except.ok p →
      p.likes = ⟨0, []⟩) := by
  constructor
  · by_cases hm : u ∈ lk.users
    · have hcont : lk.users.contains u = true := by simpa using hm
      have hlen : 0 < lk.users.length := List.length_pos_of_mem hm
      have hflen := length_filter_bne lk.users u hd hm
      rw [toggleLike, if_pos hcont]
      dsimp only
      refine ⟨?_, ?_, List.Nodup.filter _ hd⟩
      · rw [max_eq_right (by omega : (0:Int) ≤ lk.count - 1)]
        omega
      · exact le_max_left 0 _
    · have hcont : lk.users.contains u = false := by simpa using hm
      rw [toggleLike, if_neg (by simpa using hm)]
      dsimp only
      refine ⟨?_, by omega, ?_⟩
      · simp only [List.length_append, List.length_singleton]
        omega
      · rw [List.nodup_append]
        exact ⟨hd, List.nodup_singleton u,
          fun a ha hb => hm (List.mem_singleton.mp hb ▸ ha)⟩
  · intro snap c files nid now p h
    unfold createPost at h
    split at h
    · exact Except.noConfusion h
    · unfold preSaveCheck at h
      split at h
      · exact Except.noConfusion h
      · injection h with h2
        subst h2
        rfl

/-- Witness for C2 at a concrete liked post. -/
theorem c2_likes_invariant_witness :
    (((toggleLike ⟨1, ["a"]⟩ "a").1.count = (((toggleLike ⟨1, ["a"]⟩ "a").1.users.length : Int)) ∧
      0 ≤ (toggleLike ⟨1, ["a"]⟩ "a").1.count ∧
      (toggleLike ⟨1, ["a"]⟩ "a").1.users.Nodup) ∧
     (∀ snap c files nid now p, createPost snap c files nid now = Except.ok p →
       p.likes = ⟨0, []⟩)) :=
  c2_likes_invariant ⟨1, ["a"]⟩ "a" (by decide) (by decide)

/-- C3: toggling the same username twice restores the original likes state
(same count, same user set, still duplicate-free), and the two returned
`liked` flags are negations of each other. -/
theorem c3_toggle_involution (lk : Likes) (u : String)
    (hc : lk.count = (lk.users.length : Int)) (hd : lk.users.Nodup) :
    (toggleLike (toggleLike lk u).1 u).1.count = lk.count ∧
    (∀ v, v ∈ (toggleLike (toggleLike lk u).1 u).1.users ↔ v ∈ lk.users) ∧
    (toggleLike (toggleLike lk u).1 u).1.users.Nodup ∧
    (toggleLike (toggleLike lk u).1 u).2 = !(toggleLike lk u).2 := by
  by_cases hm : u ∈ lk.users
  · have hcont : lk.users.contains u = true := by simpa using hm
    have hlen : 0 < lk.users.length := List.length_pos_of_mem hm
    have hflen := length_filter_bne lk.users u hd hm
    have hnotmem : u ∉ lk.users.filter (fun w => w != u) := by
      intro hmem
      exact ((mem_filter_bne _ u u).mp hmem).2 rfl
    have e1 : toggleLike lk u
        = (⟨max 0 (lk.count - 1), lk.users.filter (fun w => w != u)⟩, false) := by
      rw [toggleLike, if_pos hcont]
    have e2 : toggleLike (⟨max 0 (lk.count - 1), lk.users.filter (fun w => w != u)⟩ : Likes) u
        = (⟨max 0 (lk.count - 1) + 1, lk.users.filter (fun w => w != u) ++ [u]⟩, true) := by
      rw [toggleLike, if_neg (by simp)]
    rw [e1]
    dsimp only
    rw [e2]
    dsimp only
    refine ⟨?_, ?_, ?_, rfl⟩
    · rw [max_eq_right (by omega : (0:Int) ≤ lk.count - 1)]
      omega
    · intro v
      simp only [List.mem_append, List.mem_singleton]
      rw [mem_filter_bne]
      constructor
      · rintro (⟨hv, _⟩ | rfl)
        · exact hv
        · exact hm
      · intro hv
        by_cases hvu : v = u
        · exact Or.inr hvu
        · exact Or.inl ⟨hv, hvu⟩
    · rw [List.nodup_append]
      exact ⟨List.Nodup.filter _ hd, List.nodup_singleton u,
        fun a ha hb => ((mem_filter_bne _ u a).mp ha).2 (List.mem_singleton.mp hb)⟩
  · have e1 : toggleLike lk u = (⟨lk.count + 1, lk.users ++ [u]⟩, true) := by
      rw [toggleLike, if_neg (by simpa using hm)]
    have hfilter : (lk.users ++ [u]).filter (fun w => w != u) = lk.users := by
      rw [List.filter_append, filter_bne_of_not_mem _ _ hm]
      simp
    have e2 : toggleLike (⟨lk.count + 1, lk.users ++ [u]⟩ : Likes) u
        = (⟨max 0 (lk.count + 1 - 1), (lk.users ++ [u]).filter (fun w => w != u)⟩, false) := by
      rw [toggleLike, if_pos (by simp)]
    rw [e1]
    dsimp only
    rw [e2, hfilter]
    dsimp only
    have hmax : max 0 (lk.count + 1 - 1) = lk.count := by
      rw [show lk.count + 1 - 1 = lk.count from by ring]
      exact max_eq_right (by omega)
    exact ⟨by rw [hmax], fun v => Iff.rfl, hd, rfl⟩

/-- Witness for C3 at a concrete post with one like. -/
theorem c3_toggle_involution_witness :
    ((toggleLike (toggleLike ⟨1, ["a"]⟩ "a").1 "a").1.count = (⟨1, ["a"]⟩ : Likes).count ∧
     (∀ v, v ∈ (toggleLike (toggleLike ⟨1, ["a"]⟩ "a").1 "a").1.users ↔
        v ∈ (⟨1, ["a"]⟩ : Likes).users) ∧
     (toggleLike (toggleLike ⟨1, ["a"]⟩ "a").1 "a").1.users.Nodup ∧
     (toggleLike (toggleLike ⟨1, ["a"]⟩ "a").1 "a").2 = !(toggleLike ⟨1, ["a"]⟩ "a").2) :=
  c3_toggle_involution ⟨1, ["a"]⟩ "a" (by decide) (by decide)

/-! Invariant definitions and operation shape lemmas. -/

/-- Fields that liking and commenting must not touch. -/
def sameFrame (p q : Post) : Prop :=
  q.content = p.content ∧ q.images = p.images ∧ q.isEdited = p.isEdited ∧
    q.editedAt = p.editedAt

/-- Stored-content hygiene guaranteed by the schema's trim setter: a stored
non-empty content has at least one non-whitespace character (a whitespace-only
assignment would have been trimmed to the empty string before storage). -/
def contentStored (p : Post) : Prop :=
  ∀ s, p.content = some s → s ≠ "" → hasNonWs s = true

/-- The spec's reading of a present post body: the content, once trimmed, is
non-empty. -/
def contentNonEmptyAfterTrim (c : Option String) : Bool :=
  match c with
  | none => false
  | some s => jsTrim s != ""

/-- Post invariant: schema-trimmed stored content, and content-or-images. -/
def postInv (p : Post) : Prop :=
  contentStored p ∧ (contentNonEmptyAfterTrim p.content = true ∨ p.images ≠ [])

/-- A trimmed string that is non-empty keeps a non-whitespace character. -/
theorem stored_trim (s : String) (h : jsTrim s ≠ "") : hasNonWs (jsTrim s) = true := by
  rw [hasNonWs_jsTrim]
  by_contra hh
  exact h ((jsTrim_eq_empty_iff s).mpr (Bool.eq_false_iff.mpr hh))

/-- A stored content that passes the falsiness test and has a non-whitespace
character is non-empty after trimming. -/
theorem trim_nonempty_of_hasNonWs (s : String) (h : hasNonWs s = true) :
    (jsTrim s != "") = true := by
  rw [jsTrim_bne_empty]
  exact h

/-- The invariant transfers along the like/comment frame. -/
theorem postInv_of_frame (p q : Post) (hf : sameFrame p q) (h : postInv p) : postInv q := by
  obtain ⟨hco, him, _, _⟩ := hf
  obtain ⟨hst, hinv⟩ := h
  constructor
  · intro s hs
    exact hst s (hco ▸ hs)
  · rw [hco, him]
    exact hinv

/-- Successful `likePost` only replaces the likes subdocument. -/
theorem likePost_ok_shape (p : Post) (u : String) (q : Post) (b : Bool)
    (h : likePost p u = Except.ok (q, b)) :
    q = { p with likes := (toggleLike p.likes u).1 } ∧
      b = (toggleLike p.likes u).2 := by
  unfold likePost preSaveCheck at h
  split at h
  · exact Except.noConfusion h
  · simp only [Except.map] at h
    injection h with h2
    injection h2 with h3 h4
    exact ⟨h3.symm, h4.symm⟩

/-- Successful `addComment` only appends to the comments list. -/
theorem addComment_ok_shape (p : Post) (uid un text : String) (now : Nat)
    (q : Post) (cm : Comment)
    (h : addComment p uid un text now = Except.ok (q, cm)) :
    q = { p with comments := p.comments ++ [⟨uid, un, jsTrim text, now⟩] } ∧
      cm = ⟨uid, un, jsTrim text, now⟩ := by
  unfold addComment at h
  split at h
  · exact Except.noConfusion h
  · unfold preSaveCheck at h
    split at h
    · exact Except.noConfusion h
    · simp only [Except.map] at h
      injection h with h2
      injection h2 with h3 h4
      exact ⟨h3.symm, h4.symm⟩

/-- Closed-form characterization of `updatePost` on an existing post: the
forbidden branch, the invariant-violation branch (400, nothing persisted, the
listed deletions already requested), and the success branch (all steps
applied, `isEdited`/`editedAt` set, the updated record persisted). -/
theorem updatePost_eq (assetFail : String → Bool) (p : Post) (rid : String)
    (c : Option String) (dl : List String) (files : List MulterFile) (now : Nat) :
    updatePost assetFail p rid c dl files now =
      if p.author ≠ rid then
        ⟨.error (.forbidden "Not authorized to edit this post"), p, []⟩
      else if contentFalsy (updContent p c) && (updImages p dl files).isEmpty then
        ⟨.error (.validation postEmptyMsg), p, dl⟩
      else
        ⟨.ok { p with content := updContent p c, images := updImages p dl files,
                      isEdited := true, editedAt := some now },
         { p with content := updContent p c, images := updImages p dl files,
                  isEdited := true, editedAt := some now }, dl⟩ := by
  have himg : updImages p dl files = applyDeletions p.images dl ++ List.map fileToImage files := rfl
  by_cases h1 : p.author = rid
  · have h1b : (p.author != rid) = false := by simp [h1]
    by_cases h2 : (contentFalsy (updContent p c) && (updImages p dl files).isEmpty) = true
    · have h2b := h2
      rw [himg] at h2b
      simp [updatePost, h1b, updateLoop_spec, h1, h2, h2b, himg]
    · have h2b := Bool.eq_false_iff.mpr h2
      rw [himg] at h2b
      have h2c := Bool.eq_false_iff.mpr h2
      simp [updatePost, h1b, updateLoop_spec, h1, h2b, h2c, himg, preSaveCheck]
  · have h1b : (p.author != rid) = true := bne_iff_ne.mpr h1
    simp [updatePost, h1b, h1]

/-! Concrete sample data used by witnesses and counterexamples. -/

/-- Sample author snapshot. -/
def alice : AuthorSnap := ⟨"u1", "alice", none⟩

/-- Sample post owned by "u1" with content and one image. -/
def samplePost : Post :=
  { id := 1, author := "u1", authorUsername := "alice", authorProfilePicture := none,
    content := some "x", images := [⟨"h0", "p0"⟩], likes := ⟨0, []⟩, comments := [],
    isEdited := false, editedAt := none, createdAt := 10 }

/-- Sample post owned by "u1" with content "hello" and two images. -/
def scenarioPost : Post :=
  { id := 2, author := "u1", authorUsername := "alice", authorProfilePicture := none,
    content := some "hello", images := [⟨"h0", "p0"⟩, ⟨"h1", "p1"⟩], likes := ⟨0, []⟩,
    comments := [], isEdited := false, editedAt := none, createdAt := 5 }

/-- Sample post owned by "u1" with three images and no content. -/
def threeImagePost : Post :=
  { id := 3, author := "u1", authorUsername := "alice", authorProfilePicture := none,
    content := none, images := [⟨"h1", "q1"⟩, ⟨"h2", "q2"⟩, ⟨"h3", "q3"⟩], likes := ⟨0, []⟩,
    comments := [], isEdited := false, editedAt := none, createdAt := 7 }

/-- External failure oracle where every deletion succeeds. -/
def noFail : String → Bool := fun _ => false

/-- External failure oracle where the first of the three sample assets fails. -/
def failFirst : String → Bool := fun s => s == "q1"

/-- C9: a requester who is not the author gets `Forbidden` from `updatePost`,
`deletePostImage` and `deletePost`; the post record is unchanged, the record
is not removed, and no external asset deletion is requested. -/
theorem c9_non_owner_forbidden (assetFail : String → Bool) (p : Post) (rid : String)
    (c : Option String) (dl : List String) (files : List MulterFile) (now : Nat)
    (pid : String) (hnot : p.author ≠ rid) :
    updatePost assetFail p rid c dl files now
      = ⟨.error (.forbidden "Not authorized to edit this post"), p, []⟩ ∧
    deletePostImage assetFail p rid pid
      = ⟨.error (.forbidden "Not authorized to edit this post"), p, []⟩ ∧
    (deletePost assetFail p rid).response
      = Except.error (ApiErr.forbidden "Not authorized to delete this post") ∧
    (deletePost assetFail p rid).removed = false ∧
    (deletePost assetFail p rid).assetDeletes = [] := by
  have hb : (p.author != rid) = true := bne_iff_ne.mpr hnot
  refine ⟨?_, ?_, ?_, ?_, ?_⟩ <;>
    simp [updatePost, deletePostImage, deletePost, hb]

/-- Witness for C9: user "u2" cannot mutate the sample post of "u1". -/
theorem c9_non_owner_forbidden_witness :
    (updatePost noFail samplePost "u2" none [] [] 11
      = ⟨.error (.forbidden "Not authorized to edit this post"), samplePost, []⟩ ∧
     deletePostImage noFail samplePost "u2" "p0"
      = ⟨.error (.forbidden "Not authorized to edit this post"), samplePost, []⟩ ∧
     (deletePost noFail samplePost "u2").response
      = Except.error (ApiErr.forbidden "Not authorized to delete this post") ∧
     (deletePost noFail samplePost "u2").removed = false ∧
     (deletePost noFail samplePost "u2").assetDeletes = []) :=
  c9_non_owner_forbidden noFail samplePost "u2" none [] [] 11 "p0" (by decide)

/-- C10: successful `likePost` and `addComment` leave content, images,
`isEdited` and `editedAt` untouched. -/
theorem c10_like_comment_frame (p : Post) (u uid un text : String) (now : Nat) :
    (∀ q b, likePost p u = Except.ok (q, b) → sameFrame p q) ∧
    (∀ q cm, addComment p uid un text now = Except.ok (q, cm) → sameFrame p q) := by
  constructor
  · intro q b h
    obtain ⟨hq, -⟩ := likePost_ok_shape p u q b h
    subst hq
    exact ⟨rfl, rfl, rfl, rfl⟩
  · intro q cm h
    obtain ⟨hq, -⟩ := addComment_ok_shape p uid un text now q cm h
    subst hq
    exact ⟨rfl, rfl, rfl, rfl⟩

/-- Witness for C10: liking and commenting on the sample post keeps its frame. -/
theorem c10_like_comment_frame_witness :
    sameFrame samplePost { samplePost with likes := ⟨1, ["bob"]⟩ } ∧
    sameFrame samplePost
      { samplePost with comments := samplePost.comments ++ [⟨"u2", "bob", jsTrim "hi", 11⟩] } :=
  ⟨(c10_like_comment_frame samplePost "bob" "u2" "bob" "hi" 11).1 _ true (by decide),
   (c10_like_comment_frame samplePost "bob" "u2" "bob" "hi" 11).2 _
     ⟨"u2", "bob", jsTrim "hi", 11⟩ (by decide)⟩

/-- C5: when the update steps leave trimmed-empty content and no images, the
call fails with `ValidationError`, the persisted record keeps its prior state,
and the already-requested asset deletions are not restored. -/
theorem c5_update_rollback (assetFail : String → Bool) (p : Post) (rid : String)
    (c : Option String) (dl : List String) (files : List MulterFile) (now : Nat)
    (hown : p.author = rid)
    (hcontent : contentFalsy (updContent p c) = true)
    (himgs : updImages p dl files = []) :
    (updatePost assetFail p rid c dl files now).response
        = Except.error (ApiErr.validation postEmptyMsg) ∧
    (updatePost assetFail p rid c dl files now).persisted = p ∧
    (updatePost assetFail p rid c dl files now).assetDeletes = dl := by
  rw [updatePost_eq]
  rw [if_neg (by simp [hown]), if_pos (by simp [hcontent, himgs])]
  exact ⟨rfl, rfl, rfl⟩

/-- Witness for C5: clearing the content and deleting the only image of the
sample post is rejected with 400 and nothing is persisted. -/
theorem c5_update_rollback_witness :
    ((updatePost noFail samplePost "u1" (some "") ["p0"] [] 12).response
        = Except.error (ApiErr.validation postEmptyMsg) ∧
     (updatePost noFail samplePost "u1" (some "") ["p0"] [] 12).persisted = samplePost ∧
     (updatePost noFail samplePost "u1" (some "") ["p0"] [] 12).assetDeletes = ["p0"]) :=
  c5_update_rollback noFail samplePost "u1" (some "") ["p0"] [] 12
    (by decide) (by decide) (by decide)

/-- C6: a successful owner update applies the steps in order — images first
filtered by the delete list, then the new uploads appended, content replaced
when provided — and sets `isEdited` and `editedAt`; exactly the listed asset
deletions are requested and the updated record is persisted. -/
theorem c6_update_steps (assetFail : String → Bool) (p : Post) (rid : String)
    (c : Option String) (dl : List String) (files : List MulterFile) (now : Nat) (q : Post)
    (hown : p.author = rid)
    (hok : (updatePost assetFail p rid c dl files now).response = Except.ok q) :
    q.images = p.images.filter (fun img => !(dl.contains img.publicId))
        ++ files.map fileToImage ∧
    q.content = updContent p c ∧
    q.isEdited = true ∧
    q.editedAt = some now ∧
    (updatePost assetFail p rid c dl files now).assetDeletes = dl ∧
    (updatePost assetFail p rid c dl files now).persisted = q := by
  rw [updatePost_eq] at hok ⊢
  rw [if_neg (by simp [hown])] at hok ⊢
  by_cases h2 : (contentFalsy (updContent p c) && (updImages p dl files).isEmpty) = true
  · rw [if_pos h2] at hok
    exact absurd hok (by simp)
  · rw [if_neg h2] at hok ⊢
    dsimp only at hok ⊢
    injection hok with hq
    subst hq
    refine ⟨?_, rfl, rfl, rfl, rfl, rfl⟩
    show updImages p dl files = _
    rw [updImages, applyDeletions_eq_filter]

/-- Result the spec scenario expects from the two-image update. -/
def scenarioUpdated : Post :=
  { scenarioPost with
      images := [⟨"h1", "p1"⟩, ⟨"h2", "p2"⟩]
      isEdited := true
      editedAt := some 9 }

/-- Witness for C6, realizing the spec scenario: update the two-image post by
removing image 0 and adding one new image, content untouched. -/
theorem c6_update_steps_witness :
    (scenarioUpdated.images
      = scenarioPost.images.filter (fun img => !((["p0"]).contains img.publicId))
          ++ [(⟨"h2", "p2"⟩ : MulterFile)].map fileToImage ∧
     scenarioUpdated.content = updContent scenarioPost none ∧
     scenarioUpdated.isEdited = true ∧
     scenarioUpdated.editedAt = some 9 ∧
     (updatePost noFail scenarioPost "u1" none ["p0"] [⟨"h2", "p2"⟩] 9).assetDeletes = ["p0"] ∧
     (updatePost noFail scenarioPost "u1" none ["p0"] [⟨"h2", "p2"⟩] 9).persisted
       = scenarioUpdated) :=
  c6_update_steps noFail scenarioPost "u1" none ["p0"] [⟨"h2", "p2"⟩] 9
    scenarioUpdated (by decide) (by decide)

/-- C7: for the owner, `deletePostImage` returns 404 when no image carries the
storageId; returns 400 — with the image still present and no asset deletion
requested — when the targeted image is the last one of a post with empty
content; and otherwise deletes the external asset, removes exactly the found
entry, and persists the post. -/
theorem c7_delete_image_spec (assetFail : String → Bool) (p : Post) (rid pid : String)
    (hown : p.author = rid) :
    ((∀ img ∈ p.images, (img.publicId == pid) = false) →
      deletePostImage assetFail p rid pid
        = ⟨.error (.notFound "Image not found in post"), p, []⟩) ∧
    (∀ i, p.images.findIdx? (fun img => img.publicId == pid) = some i →
      ((contentFalsy p.content = true ∧ p.images.length = 1) →
        deletePostImage assetFail p rid pid
          = ⟨.error (.validation
              "Cannot delete last image. Post must have content or images."), p, []⟩) ∧
      (¬(contentFalsy p.content = true ∧ p.images.length = 1) →
        deletePostImage assetFail p rid pid
          = ⟨.ok { p with images := p.images.eraseIdx i },
             { p with images := p.images.eraseIdx i }, [pid]⟩)) := by
  have hb : (p.author != rid) = false := by simp [hown]
  refine ⟨?_, ?_⟩
  · intro hno
    have hnone : p.images.findIdx? (fun img => img.publicId == pid) = none :=
      List.findIdx?_eq_none_iff.mpr hno
    simp [deletePostImage, hb, hnone]
  · intro i hi
    have hne : p.images ≠ [] := by
      intro h0
      rw [h0] at hi
      exact Option.noConfusion hi
    have hlen1 : 1 ≤ p.images.length := List.length_pos.mpr hne
    refine ⟨?_, ?_⟩
    · rintro ⟨hcf, hlen⟩
      have hguard : (contentFalsy p.content && (p.images.length == 1)) = true := by
        simp [hcf, hlen]
      simp [deletePostImage, hb, hi, hguard]
    · intro hng
      have hguard : (contentFalsy p.content && (p.images.length == 1)) = false := by
        by_cases hcf : contentFalsy p.content = true
        · have hlen : p.images.length ≠ 1 := fun h => hng ⟨hcf, h⟩
          simp [hcf, hlen]
        · simp [Bool.eq_false_iff.mpr hcf]
      have hsave : (contentFalsy p.content && (p.images.eraseIdx i).isEmpty) = false := by
        by_cases hcf : contentFalsy p.content = true
        · have hlen : p.images.length ≠ 1 := fun h => hng ⟨hcf, h⟩
          have hlen2 : 2 ≤ p.images.length := by omega
          have hidx := List.length_eraseIdx (l := p.images) (i := i)
          have hpos : 1 ≤ (p.images.eraseIdx i).length := by
            rw [hidx]
            split <;> omega
          cases h0 : p.images.eraseIdx i with
          | nil => rw [h0] at hpos; simp at hpos
          | cons a t => simp
        · simp [Bool.eq_false_iff.mpr hcf]
      simp [deletePostImage, hb, hi, hguard, preSaveCheck, hsave]

/-- Sample post owned by "u1" with one image and no content. -/
def soloImagePost : Post :=
  { id := 4, author := "u1", authorUsername := "alice", authorProfilePicture := none,
    content := none, images := [⟨"h9", "p9"⟩], likes := ⟨0, []⟩, comments := [],
    isEdited := false, editedAt := none, createdAt := 8 }

/-- Witness for C7 covering all three branches on the sample posts. -/
theorem c7_delete_image_spec_witness :
    (deletePostImage noFail samplePost "u1" "zz"
       = ⟨.error (.notFound "Image not found in post"), samplePost, []⟩ ∧
     deletePostImage noFail soloImagePost "u1" "p9"
       = ⟨.error (.validation
           "Cannot delete last image. Post must have content or images."), soloImagePost, []⟩ ∧
     deletePostImage noFail threeImagePost "u1" "q2"
       = ⟨.ok { threeImagePost with images := threeImagePost.images.eraseIdx 1 },
          { threeImagePost with images := threeImagePost.images.eraseIdx 1 }, ["q2"]⟩) :=
  ⟨(c7_delete_image_spec noFail samplePost "u1" "zz" (by decide)).1 (by decide),
   ((c7_delete_image_spec noFail soloImagePost "u1" "p9" (by decide)).2 0 (by decide)).1
     (by decide),
   ((c7_delete_image_spec noFail threeImagePost "u1" "q2" (by decide)).2 1 (by decide)).2
     (by decide)⟩

/-- C8: for the owner, `deletePost` requests the external deletion of every
owned image — whatever the pattern of external failures, every publicId is
attempted — and the record is removed regardless. -/
theorem c8_delete_all_attempted (assetFail : String → Bool) (p : Post) (rid : String)
    (hown : p.author = rid) :
    (deletePost assetFail p rid).assetDeletes
        = p.images.map (fun img => img.publicId) ∧
    (deletePost assetFail p rid).removed = true ∧
    (deletePost assetFail p rid).response = Except.ok () := by
  have hb : (p.author != rid) = false := by simp [hown]
  simp [deletePost, hb, deleteAllImages_spec]

/-- Witness for C8: deleting the three-image post under an oracle where the
first asset deletion fails still attempts all three and removes the record. -/
theorem c8_delete_all_attempted_witness :
    ((deletePost failFirst threeImagePost "u1").assetDeletes
        = threeImagePost.images.map (fun img => img.publicId) ∧
     (deletePost failFirst threeImagePost "u1").removed = true ∧
     (deletePost failFirst threeImagePost "u1").response = Except.ok ()) :=
  c8_delete_all_attempted failFirst threeImagePost "u1" (by decide)

/-- A successful pre-save run returns the document unchanged and certifies the
content-or-images condition. -/
theorem preSaveCheck_ok (p q : Post) (h : preSaveCheck p = Except.ok q) :
    q = p ∧ (contentFalsy p.content && p.images.isEmpty) = false := by
  unfold preSaveCheck at h
  split at h
  · exact Except.noConfusion h
  · rename_i hcond
    injection h with h2
    exact ⟨h2.symm, Bool.eq_false_iff.mpr hcond⟩

/-- A list whose `isEmpty` test is false is not the empty list. -/
theorem ne_nil_of_isEmpty_false {α : Type} (l : List α) (h : l.isEmpty = false) :
    l ≠ [] := by
  cases l with
  | nil => exact absurd h (by simp)
  | cons a t => simp

/-- A stored content field that is non-falsy and hygienic is non-empty after
trimming. -/
theorem contentNonEmpty_of_not_falsy (c : Option String)
    (hstored : ∀ s, c = some s → s ≠ "" → hasNonWs s = true)
    (h : contentFalsy c = false) :
    contentNonEmptyAfterTrim c = true := by
  cases c with
  | none => exact absurd h (by simp [contentFalsy])
  | some s =>
    have hs : s ≠ "" := by
      intro h0
      subst h0
      exact absurd h (by simp [contentFalsy])
    have hnw := hstored s rfl hs
    show (jsTrim s != "") = true
    rw [jsTrim_bne_empty]
    exact hnw

/-- Content written through the trim setter is hygienic. -/
theorem map_jsTrim_stored (c : Option String) :
    ∀ s, c.map jsTrim = some s → s ≠ "" → hasNonWs s = true := by
  intro s hs hne
  cases c with
  | none => exact Option.noConfusion hs
  | some s0 =>
    simp only [Option.map] at hs
    injection hs with h2
    subst h2
    exact stored_trim s0 hne

/-- The content produced by `updatePost` step (c) is hygienic whenever the
prior stored content was. -/
theorem updContent_stored (p : Post) (c : Option String) (hp : contentStored p) :
    ∀ s, updContent p c = some s → s ≠ "" → hasNonWs s = true := by
  cases c with
  | none =>
    intro s hs hne
    exact hp s hs hne
  | some c0 =>
    intro s hs hne
    simp only [updContent] at hs
    injection hs with h2
    subst h2
    exact stored_trim c0 hne

/-- Persistence analysis of `deletePostImage`: an error response leaves the
record as it was, and a success persists exactly the returned post, whose
content equals the prior content and which passes the pre-save condition. -/
theorem deletePostImage_persisted (assetFail : String → Bool) (p : Post) (rid pid : String) :
    (∀ e, (deletePostImage assetFail p rid pid).response = Except.error e →
       (deletePostImage assetFail p rid pid).persisted = p) ∧
    (∀ q, (deletePostImage assetFail p rid pid).response = Except.ok q →
       (deletePostImage assetFail p rid pid).persisted = q ∧
       q.content = p.content ∧
       (contentFalsy q.content && q.images.isEmpty) = false) := by
  by_cases h1 : (p.author != rid) = true
  · have he : deletePostImage assetFail p rid pid
        = ⟨.error (.forbidden "Not authorized to edit this post"), p, []⟩ := by
      simp [deletePostImage, h1]
    rw [he]
    exact ⟨fun e _ => rfl, fun q hq => absurd hq (by simp)⟩
  · have h1b : (p.author != rid) = false := Bool.eq_false_iff.mpr h1
    cases hfd : p.images.findIdx? (fun img => img.publicId == pid) with
    | none =>
      have he : deletePostImage assetFail p rid pid
          = ⟨.error (.notFound "Image not found in post"), p, []⟩ := by
        simp [deletePostImage, h1b, hfd]
      rw [he]
      exact ⟨fun e _ => rfl, fun q hq => absurd hq (by simp)⟩
    | some i =>
      by_cases hg : (contentFalsy p.content && (p.images.length == 1)) = true
      · have he : deletePostImage assetFail p rid pid
            = ⟨.error (.validation
                "Cannot delete last image. Post must have content or images."), p, []⟩ := by
          simp [deletePostImage, h1b, hfd, hg]
        rw [he]
        exact ⟨fun e _ => rfl, fun q hq => absurd hq (by simp)⟩
      · have hgb : (contentFalsy p.content && (p.images.length == 1)) = false :=
          Bool.eq_false_iff.mpr hg
        cases hps : preSaveCheck { p with images := p.images.eraseIdx i } with
        | ok w =>
          obtain ⟨hw, hcond⟩ := preSaveCheck_ok _ _ hps
          have he : deletePostImage assetFail p rid pid = ⟨.ok w, w, [pid]⟩ := by
            simp [deletePostImage, h1b, hfd, hgb, hps]
          rw [he]
          refine ⟨fun e h => absurd h (by simp), fun q hq => ?_⟩
          have hwq : w = q := by
            injection hq
          subst hwq
          subst hw
          exact ⟨rfl, rfl, hcond⟩
        | error e2 =>
          have he : deletePostImage assetFail p rid pid = ⟨.error e2, p, [pid]⟩ := by
            simp [deletePostImage, h1b, hfd, hgb, hps]
          rw [he]
          exact ⟨fun e _ => rfl, fun q hq => absurd hq (by simp)⟩

/-- C1: after every successful mutation (createPost, likePost, addComment,
updatePost, deletePostImage) the post satisfies the content-or-images
invariant (with schema-hygienic stored content), and a mutation that would
violate it fails with a `ValidationError` and persists no partial state.  The
route's trim sanitizer runs before createPost's falsiness check, so
whitespace-only content with no images is also rejected with 400. -/
theorem c1_mutation_invariant :
    (∀ snap c files nid now p, createPost snap c files nid now = Except.ok p → postInv p) ∧
    (∀ snap (c : Option String) (files : List MulterFile) nid now,
       contentFalsy (c.map jsTrim) = true → files = [] →
       createPost snap c files nid now = Except.error (ApiErr.validation postEmptyMsg)) ∧
    (∀ p u q b, postInv p → likePost p u = Except.ok (q, b) → postInv q) ∧
    (∀ p uid un text now q cm, postInv p →
       addComment p uid un text now = Except.ok (q, cm) → postInv q) ∧
    (∀ assetFail p rid c dl files now q, postInv p →
       (updatePost assetFail p rid c dl files now).response = Except.ok q →
       postInv q ∧ (updatePost assetFail p rid c dl files now).persisted = q) ∧
    (∀ assetFail p rid c dl files now e,
       (updatePost assetFail p rid c dl files now).response = Except.error e →
       (updatePost assetFail p rid c dl files now).persisted = p) ∧
    (∀ assetFail p rid pid q, postInv p →
       (deletePostImage assetFail p rid pid).response = Except.ok q →
       postInv q ∧ (deletePostImage assetFail p rid pid).persisted = q) ∧
    (∀ assetFail p rid pid e,
       (deletePostImage assetFail p rid pid).response = Except.error e →
       (deletePostImage assetFail p rid pid).persisted = p) := by
  refine ⟨?_, ?_, ?_, ?_, ?_, ?_, ?_, ?_⟩
  · intro snap c files nid now p h
    unfold createPost at h
    split at h
    · exact Except.noConfusion h
    · obtain ⟨hp, hcond⟩ := preSaveCheck_ok _ _ h
      subst hp
      constructor
      · intro s hs hne
        exact map_jsTrim_stored (c.map jsTrim) s hs hne
      · cases hcf : contentFalsy ((c.map jsTrim).map jsTrim) with
        | false =>
          left
          exact contentNonEmpty_of_not_falsy _ (map_jsTrim_stored (c.map jsTrim)) hcf
        | true =>
          right
          have hie : (files.map fileToImage).isEmpty = false := by
            have hc2 := hcond
            dsimp only at hc2
            rw [hcf] at hc2
            simpa using hc2
          exact ne_nil_of_isEmpty_false _ hie
  · intro snap c files nid now hcf hfe
    subst hfe
    simp [createPost, hcf]
  · intro p u q b hp h
    obtain ⟨hq, -⟩ := likePost_ok_shape p u q b h
    subst hq
    exact postInv_of_frame p _ ⟨rfl, rfl, rfl, rfl⟩ hp
  · intro p uid un text now q cm hp h
    obtain ⟨hq, -⟩ := addComment_ok_shape p uid un text now q cm h
    subst hq
    exact postInv_of_frame p _ ⟨rfl, rfl, rfl, rfl⟩ hp
  · intro assetFail p rid c dl files now q hp hok
    rw [updatePost_eq] at hok ⊢
    by_cases h1 : p.author = rid
    · rw [if_neg (by simp [h1])] at hok ⊢
      by_cases h2 : (contentFalsy (updContent p c) && (updImages p dl files).isEmpty) = true
      · rw [if_pos h2] at hok
        exact absurd hok (by simp)
      · rw [if_neg h2] at hok ⊢
        dsimp only at hok ⊢
        injection hok with hq
        constructor
        · rw [← hq]
          constructor
          · intro s hs hne
            exact updContent_stored p c hp.1 s hs hne
          · have h2b := Bool.eq_false_iff.mpr h2
            cases hcf : contentFalsy (updContent p c) with
            | false =>
              left
              exact contentNonEmpty_of_not_falsy _ (updContent_stored p c hp.1) hcf
            | true =>
              right
              rw [hcf] at h2b
              have hie : (updImages p dl files).isEmpty = false := by simpa using h2b
              exact ne_nil_of_isEmpty_false _ hie
        · exact hq
    · rw [if_pos h1] at hok
      exact absurd hok (by simp)
  · intro assetFail p rid c dl files now e herr
    rw [updatePost_eq] at herr ⊢
    by_cases h1 : p.author = rid
    · rw [if_neg (by simp [h1])] at herr ⊢
      by_cases h2 : (contentFalsy (updContent p c) && (updImages p dl files).isEmpty) = true
      · rw [if_pos h2]
      · rw [if_neg h2] at herr
        dsimp only at herr
        exact absurd herr (by simp)
    · rw [if_pos h1]
  · intro assetFail p rid pid q hp hok
    obtain ⟨hpers, hcontent, hcond⟩ := (deletePostImage_persisted assetFail p rid pid).2 q hok
    refine ⟨⟨?_, ?_⟩, hpers⟩
    · intro s hs hne
      exact hp.1 s (hcontent ▸ hs) hne
    · cases hcf : contentFalsy q.content with
      | false =>
        left
        apply contentNonEmpty_of_not_falsy
        · intro s hs hne
          exact hp.1 s (hcontent ▸ hs) hne
        · exact hcf
      | true =>
        right
        rw [hcf] at hcond
        have hie : q.images.isEmpty = false := by simpa using hcond
        exact ne_nil_of_isEmpty_false _ hie
  · intro assetFail p rid pid e herr
    exact (deletePostImage_persisted assetFail p rid pid).1 e herr

/-- Post produced by a successful sample `createPost`. -/
def createdSample : Post :=
  { id := 5, author := "u1", authorUsername := "alice", authorProfilePicture := none,
    content := some "x", images := [], likes := ⟨0, []⟩, comments := [],
    isEdited := false, editedAt := none, createdAt := 6 }

/-- Witness for C1 at concrete inputs: a successful creation satisfies the
invariant, whitespace-only creation fails with the 400 ValidationError, and a
violating update persists nothing. -/
theorem c1_mutation_invariant_witness :
    postInv createdSample ∧
    createPost alice (some " ") [] 5 6 = Except.error (ApiErr.validation postEmptyMsg) ∧
    (updatePost noFail samplePost "u1" (some "") ["p0"] [] 12).persisted = samplePost :=
  ⟨c1_mutation_invariant.1 alice (some "x") [] 5 6 createdSample (by decide),
   c1_mutation_invariant.2.1 alice (some " ") [] 5 6 (by decide) rfl,
   c1_mutation_invariant.2.2.2.2.2.1 noFail samplePost "u1" (some "") ["p0"] [] 12
     (ApiErr.validation postEmptyMsg) (by decide)⟩

/-- Ordering claimed by the spec for the feed: `createdAt` descending with
ties broken by identifier descending. -/
def claimOrderC4 (a b : Post) : Prop :=
  b.createdAt < a.createdAt ∨ (a.createdAt = b.createdAt ∧ b.id < a.id)

instance : DecidableRel claimOrderC4 :=
  fun a b => inferInstanceAs
    (Decidable (b.createdAt < a.createdAt ∨ (a.createdAt = b.createdAt ∧ b.id < a.id)))

/-- First of two posts sharing a creation timestamp. -/
def tiePostA : Post :=
  { id := 1, author := "u1", authorUsername := "alice", authorProfilePicture := none,
    content := some "x", images := [], likes := ⟨0, []⟩, comments := [],
    isEdited := false, editedAt := none, createdAt := 10 }

/-- Second post with the same `createdAt` but a larger identifier. -/
def tiePostB : Post :=
  { tiePostA with id := 2 }

/-- Counterexample to C4 as stated: the source sorts by `createdAt` only, so
two posts sharing `createdAt` come back in stored order — not in the
identifier-descending order the claim requires. -/
theorem c4_counterexample :
    (getPosts [tiePostA, tiePostB] 1 10).data = [tiePostA, tiePostB] ∧
    tiePostA.createdAt = tiePostB.createdAt ∧
    tiePostA.id < tiePostB.id ∧
    ¬ List.Pairwise claimOrderC4 (getPosts [tiePostA, tiePostB] 1 10).data := by
  decide

/-- C4 (amended): the feed returns the repository sorted by `createdAt`
descending (the source specifies no tie-break; the model realizes ties in
stored order), skipping `(page-1)*limit` and taking at most `limit` posts;
`totalItems` is the repository size, `totalPages` is the ceiling of
`totalItems/limit` (characterized by the two bounds below), `hasMore` is
`currentPage < totalPages`, equivalently `currentPage*limit < totalItems`,
and an empty repository yields `totalPages = 0` and `hasMore = false`. -/
theorem c4_feed_pagination (repo : List Post) (page limit : Nat)
    (hp : 1 ≤ page) (hl : 1 ≤ limit) :
    (getPosts repo page limit).data
        = ((List.insertionSort createdGE repo).drop ((page - 1) * limit)).take limit ∧
    (List.insertionSort createdGE repo).Perm repo ∧
    List.Sorted createdGE (getPosts repo page limit).data ∧
    (getPosts repo page limit).data.length ≤ limit ∧
    (getPosts repo page limit).pagination.currentPage = page ∧
    (getPosts repo page limit).pagination.totalItems = repo.length ∧
    repo.length ≤ (getPosts repo page limit).pagination.totalPages * limit ∧
    (getPosts repo page limit).pagination.totalPages * limit < repo.length + limit ∧
    ((getPosts repo page limit).pagination.hasMore = true ↔
       page < (getPosts repo page limit).pagination.totalPages) ∧
    ((getPosts repo page limit).pagination.hasMore = true ↔ page * limit < repo.length) ∧
    (repo.length = 0 →
       (getPosts repo page limit).pagination.totalPages = 0 ∧
       (getPosts repo page limit).pagination.hasMore = false) := by
  have htp : (getPosts repo page limit).pagination.totalPages
      = (repo.length + limit - 1) / limit := rfl
  have hhm : (getPosts repo page limit).pagination.hasMore
      = decide (page < (repo.length + limit - 1) / limit) := rfl
  have harith : repo.length ≤ ((repo.length + limit - 1) / limit) * limit ∧
      ((repo.length + limit - 1) / limit) * limit < repo.length + limit := by
    have hdm := Nat.div_add_mod (repo.length + limit - 1) limit
    have hml : (repo.length + limit - 1) % limit < limit := Nat.mod_lt _ (by omega)
    have hc : ((repo.length + limit - 1) / limit) * limit
        = limit * ((repo.length + limit - 1) / limit) := Nat.mul_comm _ _
    rw [hc]
    omega
  have hiff : (page < (repo.length + limit - 1) / limit) ↔ page * limit < repo.length := by
    rw [Nat.lt_iff_add_one_le, Nat.le_div_iff_mul_le (by omega : 0 < limit)]
    have h2 : (page + 1) * limit = page * limit + limit := by ring
    rw [h2]
    generalize page * limit = k
    omega
  refine ⟨rfl, List.perm_insertionSort createdGE repo, ?_, ?_, rfl, rfl, ?_, ?_, ?_, ?_, ?_⟩
  · exact List.Pairwise.sublist
      ((List.take_sublist _ _).trans (List.drop_sublist _ _))
      (List.sorted_insertionSort createdGE repo)
  · exact List.length_take_le _ _
  · rw [htp]
    exact harith.1
  · rw [htp]
    exact harith.2
  · rw [hhm, htp]
    simp
  · rw [hhm]
    simpa using hiff
  · intro h0
    have htp0 : (repo.length + limit - 1) / limit = 0 := by
      rw [h0]
      exact Nat.div_eq_of_lt (by omega)
    constructor
    · rw [htp, htp0]
    · rw [hhm, htp0]
      simp

/-- Witness for C4 (amended) on a two-post repository. -/
theorem c4_feed_pagination_witness :
    ((getPosts [tiePostA, tiePostB] 1 1).data
        = ((List.insertionSort createdGE [tiePostA, tiePostB]).drop ((1 - 1) * 1)).take 1 ∧
     (List.insertionSort createdGE [tiePostA, tiePostB]).Perm [tiePostA, tiePostB] ∧
     List.Sorted createdGE (getPosts [tiePostA, tiePostB] 1 1).data ∧
     (getPosts [tiePostA, tiePostB] 1 1).data.length ≤ 1 ∧
     (getPosts [tiePostA, tiePostB] 1 1).pagination.currentPage = 1 ∧
     (getPosts [tiePostA, tiePostB] 1 1).pagination.totalItems = [tiePostA, tiePostB].length ∧
     [tiePostA, tiePostB].length
        ≤ (getPosts [tiePostA, tiePostB] 1 1).pagination.totalPages * 1 ∧
     (getPosts [tiePostA, tiePostB] 1 1).pagination.totalPages * 1
        < [tiePostA, tiePostB].length + 1 ∧
     ((getPosts [tiePostA, tiePostB] 1 1).pagination.hasMore = true ↔
        1 < (getPosts [tiePostA, tiePostB] 1 1).pagination.totalPages) ∧
     ((getPosts [tiePostA, tiePostB] 1 1).pagination.hasMore = true ↔
        1 * 1 < [tiePostA, tiePostB].length) ∧
     ([tiePostA, tiePostB].length = 0 →
        (getPosts [tiePostA, tiePostB] 1 1).pagination.totalPages = 0 ∧
        (getPosts [tiePostA, tiePostB] 1 1).pagination.hasMore = false)) :=
  c4_feed_pagination [tiePostA, tiePostB] 1 1 (by decide) (by decide)
